import Mathlib

/-!
Verification of the ctype character classification library
(src/src/lang_c/libc/src/ctype.c) against its specification.

The C functions operate on a 32-bit `int` argument.  In the source, range
checks are performed after casting to 32-bit `unsigned`, so we model
`(unsigned)c` as the natural number `c mod 2^32`, and bitwise operations on
`int` values through their two's-complement 32-bit representation.
-/

namespace ctype

/-- `(unsigned)c`: the value of the C cast from 32-bit `int` to 32-bit
`unsigned`, i.e. `c` reduced modulo `2^32`, as a natural number. -/
def toU (c : Int) : Nat := (c % 4294967296).toNat

/-- Reinterpret a 32-bit unsigned value as a signed C `int`
(two's complement). -/
def toS (n : Nat) : Int := if n < 2147483648 then (n : Int) else (n : Int) - 4294967296

/-- C 32-bit unsigned subtraction `a - b` (wrapping modulo `2^32`),
for `b ≤ 2^32`. -/
def usub (a b : Nat) : Nat := (a + 4294967296 - b) % 4294967296

/-- `int isascii(int c) { return !(c&~0x7f); }`
`~0x7f` has two's-complement 32-bit pattern `0xFFFFFF80 = 4294967168`. -/
def isascii (c : Int) : Int := if toU c &&& 4294967168 = 0 then 1 else 0

/-- `int isblank(int c) { return c == ' ' || c == '\t'; }` -/
def isblank (c : Int) : Int := if c = 32 ∨ c = 9 then 1 else 0

/-- `int isalpha(int c) { return ((unsigned)c|32)-'a' < 26; }` -/
def isalpha (c : Int) : Int := if usub (toU c ||| 32) 97 < 26 then 1 else 0

/-- `int isdigit(int c) { return (unsigned)c-'0' < 10; }` -/
def isdigit (c : Int) : Int := if usub (toU c) 48 < 10 then 1 else 0

/-- `int isalnum(int c) { return isalpha(c) || isdigit(c); }` -/
def isalnum (c : Int) : Int := if isalpha c ≠ 0 ∨ isdigit c ≠ 0 then 1 else 0

/-- `int isspace(int c) { return c == ' ' || (unsigned)c-'\t' < 5; }` -/
def isspace (c : Int) : Int := if c = 32 ∨ usub (toU c) 9 < 5 then 1 else 0

/-- `int isupper(int c) { return (unsigned)c-'A' < 26; }` -/
def isupper (c : Int) : Int := if usub (toU c) 65 < 26 then 1 else 0

/-- `int islower(int c) { return (unsigned)c-'a' < 26; }` -/
def islower (c : Int) : Int := if usub (toU c) 97 < 26 then 1 else 0

/-- `int tolower(int c) { if (isupper(c)) { return c | 32; } return c; }` -/
def tolower (c : Int) : Int := if isupper c ≠ 0 then toS (toU c ||| 32) else c

/-- `int toupper(int c) { if (islower(c)) { return c & 0x5f; } return c; }` -/
def toupper (c : Int) : Int := if islower c ≠ 0 then toS (toU c &&& 95) else c

/-- `int toascii(int c) { return c & 0x7f; }` -/
def toascii (c : Int) : Int := toS (toU c &&& 127)

/-- `int isprint(int c) { return (unsigned)c-0x20 < 0x5f; }` -/
def isprint (c : Int) : Int := if usub (toU c) 32 < 95 then 1 else 0

/-- `int isgraph(int c) { return (unsigned)c-0x21 < 0x5e; }` -/
def isgraph (c : Int) : Int := if usub (toU c) 33 < 94 then 1 else 0

/-- `int ispunct(int c) { return isgraph(c) && !isalnum(c); }` -/
def ispunct (c : Int) : Int := if isgraph c ≠ 0 ∧ isalnum c = 0 then 1 else 0

/-- `int iscntrl(int c) { return (unsigned)c < 0x20 || c == 0x7f; }` -/
def iscntrl (c : Int) : Int := if toU c < 32 ∨ c = 127 then 1 else 0

/-- `int isxdigit(int c) { return isdigit(c) || ((unsigned)c|32)-'a' < 6; }` -/
def isxdigit (c : Int) : Int := if isdigit c ≠ 0 ∨ usub (toU c ||| 32) 97 < 6 then 1 else 0

/-! Transcription of the contract table of section 4 of the specification:
each predicate of the table, as the set of integers it declares nonzero.
These follow the spec's words, to be compared with the code above. -/

/-- Spec table: `isascii` nonzero iff `0 <= c <= 127`. -/
abbrev spec_isascii (c : Int) : Prop := 0 ≤ c ∧ c ≤ 127

/-- Spec table: `isblank` nonzero iff `c` is space or horizontal tab. -/
abbrev spec_isblank (c : Int) : Prop := c = 32 ∨ c = 9

/-- Spec table: `isupper` nonzero iff `c` is in `'A'..'Z'`. -/
abbrev spec_isupper (c : Int) : Prop := 65 ≤ c ∧ c ≤ 90

/-- Spec table: `islower` nonzero iff `c` is in `'a'..'z'`. -/
abbrev spec_islower (c : Int) : Prop := 97 ≤ c ∧ c ≤ 122

/-- Spec table: `isalpha` nonzero iff `c` is an upper or lower case letter. -/
abbrev spec_isalpha (c : Int) : Prop := spec_isupper c ∨ spec_islower c

/-- Spec table: `isdigit` nonzero iff `c` is in `'0'..'9'`. -/
abbrev spec_isdigit (c : Int) : Prop := 48 ≤ c ∧ c ≤ 57

/-- Spec table: `isalnum` nonzero iff `isalpha` or `isdigit` holds. -/
abbrev spec_isalnum (c : Int) : Prop := spec_isalpha c ∨ spec_isdigit c

/-- Spec table: `isspace` nonzero iff `c` is space or in the five-code
control range starting at tab (tab, newline, vertical tab, form feed,
carriage return). -/
abbrev spec_isspace (c : Int) : Prop := c = 32 ∨ (9 ≤ c ∧ c ≤ 13)

/-- Spec table: `isxdigit` nonzero iff `isdigit` holds or `c` is one of
`a`..`f` / `A`..`F`. -/
abbrev spec_isxdigit (c : Int) : Prop := spec_isdigit c ∨ (97 ≤ c ∧ c ≤ 102) ∨ (65 ≤ c ∧ c ≤ 70)

/-- Spec table: `isgraph` nonzero iff `c` is in `0x21..0x7e`. -/
abbrev spec_isgraph (c : Int) : Prop := 33 ≤ c ∧ c ≤ 126

/-- Spec table: `isprint` nonzero iff `c` is in `0x20..0x7e`. -/
abbrev spec_isprint (c : Int) : Prop := 32 ≤ c ∧ c ≤ 126

/-- Spec table: `ispunct` nonzero iff `isgraph` holds and `isalnum` does not. -/
abbrev spec_ispunct (c : Int) : Prop := spec_isgraph c ∧ ¬ spec_isalnum c

/-- Spec table: `iscntrl` nonzero iff `c < 0x20` or `c == 0x7f`, with the
spec's added gloss that negative inputs are classified as control — i.e. a
signed reading of the lower bound. -/
abbrev spec_iscntrl (c : Int) : Prop := c < 32 ∨ c = 127

/-- The `iscntrl` entry as the code actually behaves: the lower-bound
comparison is on `(unsigned)c`, so for `int`-range inputs it requires
`0 ≤ c`, and negative inputs are NOT control characters. -/
abbrev spec_iscntrl_unsigned (c : Int) : Prop := (0 ≤ c ∧ c < 32) ∨ c = 127

/-! ### Basic facts about the embedding -/

lemma toU_lt (c : Int) : toU c < 4294967296 := by
  unfold toU; omega

lemma toU_cast (c : Int) : (toU c : Int) = c % 4294967296 := by
  unfold toU; omega

/-- A C boolean-producing conditional is nonzero exactly when its
condition holds. -/
lemma ite_one_zero_ne_zero (p : Prop) [Decidable p] :
    ((if p then (1 : Int) else 0) ≠ 0) ↔ p := by
  split <;> simp_all

/-- A C boolean-producing conditional only returns 0 or 1. -/
lemma ite_one_zero_cases (p : Prop) [Decidable p] :
    (if p then (1 : Int) else 0) = 0 ∨ (if p then (1 : Int) else 0) = 1 := by
  split <;> simp

lemma le_lor (a b : Nat) : a ≤ a ||| b := by
  refine Nat.le_of_testBit fun i h => ?_
  rw [Nat.testBit_or, h, Bool.true_or]

lemma lor_lt_two_pow_32 {a b : Nat} (ha : a < 4294967296) (hb : b < 4294967296) :
    a ||| b < 4294967296 :=
  Nat.or_lt_two_pow (n := 32) ha hb

/-- Range characterization of the unsigned-subtraction trick: for a reduced
operand `a < 2^32` and a small bound, `(unsigned)a - b < w` holds exactly on
`b ≤ a < b + w`. -/
lemma usub_lt_iff {a b w : Nat} (ha : a < 4294967296) (hb : b ≤ 123) (hw : w ≤ 95) :
    usub a b < w ↔ b ≤ a ∧ a < b + w := by
  unfold usub; omega

/-- Folding an upper-case letter code with `| 32` lands on the matching
lower-case letter code. -/
lemma lor_32_upper : ∀ r : Nat, r < 26 → (65 + r) ||| 32 = 97 + r := by decide

/-- Lower-case letter codes already have bit 5 set, so `| 32` fixes them. -/
lemma lor_32_lower : ∀ r : Nat, r < 26 → (97 + r) ||| 32 = 97 + r := by decide

/-- Masking a lower-case letter code with `0x5f` clears bit 5, landing on
the matching upper-case letter code. -/
lemma land_95_lower : ∀ r : Nat, r < 26 → (97 + r) &&& 95 = 65 + r := by decide

lemma isupper_ne_zero_iff {c : Int} :
    isupper c ≠ 0 ↔ 65 ≤ toU c ∧ toU c < 91 := by
  unfold isupper
  rw [ite_one_zero_ne_zero, usub_lt_iff (toU_lt c) (by omega) (by omega)]

lemma islower_ne_zero_iff {c : Int} :
    islower c ≠ 0 ↔ 97 ≤ toU c ∧ toU c < 123 := by
  unfold islower
  rw [ite_one_zero_ne_zero, usub_lt_iff (toU_lt c) (by omega) (by omega)]

/-- When `isupper c` holds, `tolower c` is the concrete lower-case code
`97 + (toU c - 65)`. -/
lemma tolower_of_isupper {c : Int} (h : isupper c ≠ 0) :
    tolower c = 97 + ((toU c : Int) - 65) := by
  have hb := isupper_ne_zero_iff.mp h
  unfold tolower
  rw [if_pos h]
  have h65 : toU c = 65 + (toU c - 65) := by omega
  rw [h65, lor_32_upper _ (by omega)]
  unfold toS
  rw [if_pos (by omega)]
  push_cast
  omega

/-- When `islower c` holds, `toupper c` is the concrete upper-case code
`65 + (toU c - 97)`. -/
lemma toupper_of_islower {c : Int} (h : islower c ≠ 0) :
    toupper c = 65 + ((toU c : Int) - 97) := by
  have hb := islower_ne_zero_iff.mp h
  unfold toupper
  rw [if_pos h]
  have h97 : toU c = 97 + (toU c - 97) := by omega
  rw [h97, land_95_lower _ (by omega)]
  unfold toS
  rw [if_pos (by omega)]
  push_cast
  omega

lemma toU_of_small {n : Nat} (h : n < 4294967296) : toU (n : Int) = n := by
  unfold toU; omega

lemma tolower_eq_self {c : Int} (h : isupper c = 0) : tolower c = c := by
  unfold tolower
  rw [if_neg (by simp [h])]

lemma toupper_eq_self {c : Int} (h : islower c = 0) : toupper c = c := by
  unfold toupper
  rw [if_neg (by simp [h])]

lemma isupper_eq_zero_of_not {c : Int} (h : ¬(65 ≤ toU c ∧ toU c < 91)) :
    isupper c = 0 := by
  by_contra h'
  exact h (isupper_ne_zero_iff.mp h')

lemma islower_eq_zero_of_not {c : Int} (h : ¬(97 ≤ toU c ∧ toU c < 123)) :
    islower c = 0 := by
  by_contra h'
  exact h (islower_ne_zero_iff.mp h')

/-! ### Claims -/

/-- C6: `tolower` and `toupper` are the identity whenever the respective
source-case predicate is false: for every integer `c`, `isupper c = 0`
implies `tolower c = c`, and `islower c = 0` implies `toupper c = c`. -/
theorem tolower_toupper_identity_off_case (c : Int) :
    (isupper c = 0 → tolower c = c) ∧ (islower c = 0 → toupper c = c) :=
  ⟨fun h => tolower_eq_self h, fun h => toupper_eq_self h⟩

/-- Witness for C6 at the concrete non-letter input `48` (the digit `0`). -/
theorem tolower_toupper_identity_off_case_witness :
    tolower 48 = 48 ∧ toupper 48 = 48 :=
  ⟨(tolower_toupper_identity_off_case 48).1 (by decide),
   (tolower_toupper_identity_off_case 48).2 (by decide)⟩

/-- C9: blank characters are whitespace: for every integer `c`, if
`isblank c` is nonzero then `isspace c` is nonzero. -/
theorem isblank_subset_isspace (c : Int) (h : isblank c ≠ 0) : isspace c ≠ 0 := by
  unfold isblank at h
  rw [ite_one_zero_ne_zero] at h
  rcases h with h | h <;> subst h <;> decide

/-- Witness for C9 at the concrete input `9` (horizontal tab). -/
theorem isblank_subset_isspace_witness : isblank 9 ≠ 0 ∧ isspace 9 ≠ 0 :=
  ⟨by decide, isblank_subset_isspace 9 (by decide)⟩

/-- C8: for every integer `c`, the output of `tolower` is never an
upper-case letter and the output of `toupper` is never a lower-case
letter: `isupper (tolower c) = 0` and `islower (toupper c) = 0`. -/
theorem tolower_not_upper_and_toupper_not_lower (c : Int) :
    isupper (tolower c) = 0 ∧ islower (toupper c) = 0 := by
  constructor
  · by_cases h : isupper c ≠ 0
    · have hb := isupper_ne_zero_iff.mp h
      rw [tolower_of_isupper h]
      apply isupper_eq_zero_of_not
      have ht : (toU (97 + ((toU c : Int) - 65)) : Int) = 97 + ((toU c : Int) - 65) := by
        rw [toU_cast]; omega
      omega
    · rw [tolower_eq_self (by simpa using h)]
      simpa using h
  · by_cases h : islower c ≠ 0
    · have hb := islower_ne_zero_iff.mp h
      rw [toupper_of_islower h]
      apply islower_eq_zero_of_not
      have ht : (toU (65 + ((toU c : Int) - 97)) : Int) = 65 + ((toU c : Int) - 97) := by
        rw [toU_cast]; omega
      omega
    · rw [toupper_eq_self (by simpa using h)]
      simpa using h

/-- C10: `tolower` and `toupper` are idempotent over the whole integer
domain: `tolower (tolower c) = tolower c` and
`toupper (toupper c) = toupper c` for every integer `c`. -/
theorem tolower_toupper_idempotent (c : Int) :
    tolower (tolower c) = tolower c ∧ toupper (toupper c) = toupper c := by
  constructor
  · by_cases h : isupper c ≠ 0
    · have hb := isupper_ne_zero_iff.mp h
      rw [tolower_of_isupper h]
      apply tolower_eq_self
      apply isupper_eq_zero_of_not
      have ht : (toU (97 + ((toU c : Int) - 65)) : Int) = 97 + ((toU c : Int) - 65) := by
        rw [toU_cast]; omega
      omega
    · have h0 : isupper c = 0 := by simpa using h
      rw [tolower_eq_self h0]
      exact tolower_eq_self h0
  · by_cases h : islower c ≠ 0
    · have hb := islower_ne_zero_iff.mp h
      rw [toupper_of_islower h]
      apply toupper_eq_self
      apply islower_eq_zero_of_not
      have ht : (toU (65 + ((toU c : Int) - 97)) : Int) = 65 + ((toU c : Int) - 97) := by
        rw [toU_cast]; omega
      omega
    · have h0 : islower c = 0 := by simpa using h
      rw [toupper_eq_self h0]
      exact toupper_eq_self h0

set_option maxRecDepth 100000 in
/-- C5: for every ASCII letter `c`, converting to one case and then the
other agrees with converting directly:
`tolower (toupper c) = tolower c` and `toupper (tolower c) = toupper c`. -/
theorem case_roundtrip_on_letters (c : Int)
    (h : (65 ≤ c ∧ c ≤ 90) ∨ (97 ≤ c ∧ c ≤ 122)) :
    tolower (toupper c) = tolower c ∧ toupper (tolower c) = toupper c := by
  have key : ∀ n : Nat, n < 123 → ((65 ≤ n ∧ n ≤ 90) ∨ (97 ≤ n ∧ n ≤ 122)) →
      tolower (toupper (n : Int)) = tolower (n : Int) ∧
      toupper (tolower (n : Int)) = toupper (n : Int) := by decide
  have hc : c = (c.toNat : Int) := by omega
  rw [hc]
  exact key c.toNat (by omega) (by omega)

/-- Witness for C5 at the concrete letter `65` (the character `A`). -/
theorem case_roundtrip_on_letters_witness :
    ((65 ≤ (65 : Int) ∧ (65 : Int) ≤ 90) ∨ (97 ≤ (65 : Int) ∧ (65 : Int) ≤ 122)) ∧
    (tolower (toupper 65) = tolower 65 ∧ toupper (tolower 65) = toupper 65) :=
  ⟨by decide, case_roundtrip_on_letters 65 (by decide)⟩

set_option maxRecDepth 100000 in
/-- C7: for every integer `c` in `0..255`, `isascii c` is nonzero exactly
when `toascii c = c`: masking to the low 7 bits is a no-op precisely on
values already in `0..127`. -/
theorem isascii_iff_toascii_fixed (c : Int) (h0 : 0 ≤ c) (h1 : c ≤ 255) :
    isascii c ≠ 0 ↔ toascii c = c := by
  have key : ∀ n : Nat, n < 256 →
      (isascii (n : Int) ≠ 0 ↔ toascii (n : Int) = (n : Int)) := by decide
  have hc : c = (c.toNat : Int) := by omega
  rw [hc]
  exact key c.toNat (by omega)

/-- Witness for C7 at the concrete input `65`. -/
theorem isascii_iff_toascii_fixed_witness :
    (0 ≤ (65 : Int) ∧ (65 : Int) ≤ 255) ∧ (isascii 65 ≠ 0 ↔ toascii 65 = 65) :=
  ⟨by decide, isascii_iff_toascii_fixed 65 (by decide) (by decide)⟩

/-- C2 counterexample: the claim says `iscntrl` is nonzero for every
negative input (`-1` satisfies the claimed signed bound `-1 < 0x20`), but
the code compares `(unsigned)c`, which wraps `-1` to `0xFFFFFFFF`, so
`iscntrl (-1) = 0`. -/
theorem iscntrl_negative_counterexample :
    ((-1 : Int) < 32 ∧ (-1 : Int) < 0) ∧ iscntrl (-1) = 0 := by decide

/-- C2 (amended): for every `int`-range integer `c`, `iscntrl c` is nonzero
iff `0 ≤ c < 0x20` or `c = 0x7f`.  The lower-bound comparison on
`(unsigned)c` means negative inputs are NOT classified as control:
`iscntrl c = 0` for all `c < 0`. -/
theorem iscntrl_iff_unsigned_range (c : Int)
    (h0 : -2147483648 ≤ c) (h1 : c < 2147483648) :
    (iscntrl c ≠ 0 ↔ ((0 ≤ c ∧ c < 32) ∨ c = 127)) ∧ (c < 0 → iscntrl c = 0) := by
  have hcast := toU_cast c
  have key : iscntrl c ≠ 0 ↔ (toU c < 32 ∨ c = 127) := by
    unfold iscntrl
    exact ite_one_zero_ne_zero _
  have hcases : iscntrl c = 0 ∨ iscntrl c = 1 := by
    unfold iscntrl
    exact ite_one_zero_cases _
  constructor
  · omega
  · intro hneg
    omega

/-- Witness for C2 (amended) at the concrete inputs discharged for `c = 10`. -/
theorem iscntrl_iff_unsigned_range_witness :
    (iscntrl 10 ≠ 0 ↔ ((0 ≤ (10 : Int) ∧ (10 : Int) < 32) ∨ (10 : Int) = 127)) ∧
    ((10 : Int) < 0 → iscntrl 10 = 0) :=
  iscntrl_iff_unsigned_range 10 (by decide) (by decide)

set_option maxRecDepth 100000 in
/-- The case-folded 26-wide range check of `isalpha`, characterized on
reduced values: `((unsigned)v | 32) - 97 < 26` holds exactly on the two
letter ranges. -/
lemma isalpha_core {v : Nat} (hv : v < 4294967296) :
    usub (v ||| 32) 97 < 26 ↔ ((65 ≤ v ∧ v ≤ 90) ∨ (97 ≤ v ∧ v ≤ 122)) := by
  by_cases hsmall : v < 123
  · have key : ∀ w : Nat, w < 123 →
        (usub (w ||| 32) 97 < 26 ↔ ((65 ≤ w ∧ w ≤ 90) ∨ (97 ≤ w ∧ w ≤ 122))) := by decide
    exact key v hsmall
  · have hle : v ≤ v ||| 32 := le_lor v 32
    have hlt : v ||| 32 < 4294967296 := lor_lt_two_pow_32 hv (by omega)
    unfold usub
    omega

/-- C4: for every `int`-range integer `c`, `isalpha c` is nonzero iff `c`
is in `'A'..'Z'` or `'a'..'z'`: the fold by `| 32` followed by the single
26-wide range check from `'a'` accepts exactly those two ranges. -/
theorem isalpha_iff_letter (c : Int)
    (h0 : -2147483648 ≤ c) (h1 : c < 2147483648) :
    isalpha c ≠ 0 ↔ ((65 ≤ c ∧ c ≤ 90) ∨ (97 ≤ c ∧ c ≤ 122)) := by
  have hcast := toU_cast c
  have key := isalpha_core (toU_lt c)
  unfold isalpha
  rw [ite_one_zero_ne_zero, key]
  omega

/-- Witness for C4 at the concrete input `97` (the character `a`). -/
theorem isalpha_iff_letter_witness :
    isalpha 97 ≠ 0 ↔ ((65 ≤ (97 : Int) ∧ (97 : Int) ≤ 90) ∨ (97 ≤ (97 : Int) ∧ (97 : Int) ≤ 122)) :=
  isalpha_iff_letter 97 (by decide) (by decide)

/-- C3: every function of the file is total over the `int` domain and
produces a well-defined `int` result: each predicate returns exactly 0 or
1, and each transform returns a value in the 32-bit `int` range (and
`toascii` a 7-bit value).  Being plain (state-free) functions of their
argument, all seventeen operations are side-effect-free and deterministic
by construction: two calls on the same input denote the same value. -/
theorem ctype_total_and_well_defined (c : Int)
    (h0 : -2147483648 ≤ c) (h1 : c < 2147483648) :
    (isascii c = 0 ∨ isascii c = 1) ∧
    (isblank c = 0 ∨ isblank c = 1) ∧
    (isalpha c = 0 ∨ isalpha c = 1) ∧
    (isdigit c = 0 ∨ isdigit c = 1) ∧
    (isalnum c = 0 ∨ isalnum c = 1) ∧
    (isspace c = 0 ∨ isspace c = 1) ∧
    (isupper c = 0 ∨ isupper c = 1) ∧
    (islower c = 0 ∨ islower c = 1) ∧
    (isprint c = 0 ∨ isprint c = 1) ∧
    (isgraph c = 0 ∨ isgraph c = 1) ∧
    (ispunct c = 0 ∨ ispunct c = 1) ∧
    (iscntrl c = 0 ∨ iscntrl c = 1) ∧
    (isxdigit c = 0 ∨ isxdigit c = 1) ∧
    (-2147483648 ≤ tolower c ∧ tolower c < 2147483648) ∧
    (-2147483648 ≤ toupper c ∧ toupper c < 2147483648) ∧
    (0 ≤ toascii c ∧ toascii c ≤ 127) := by
  refine ⟨?_, ?_, ?_, ?_, ?_, ?_, ?_, ?_, ?_, ?_, ?_, ?_, ?_, ?_, ?_, ?_⟩
  · unfold isascii; exact ite_one_zero_cases _
  · unfold isblank; exact ite_one_zero_cases _
  · unfold isalpha; exact ite_one_zero_cases _
  · unfold isdigit; exact ite_one_zero_cases _
  · unfold isalnum; exact ite_one_zero_cases _
  · unfold isspace; exact ite_one_zero_cases _
  · unfold isupper; exact ite_one_zero_cases _
  · unfold islower; exact ite_one_zero_cases _
  · unfold isprint; exact ite_one_zero_cases _
  · unfold isgraph; exact ite_one_zero_cases _
  · unfold ispunct; exact ite_one_zero_cases _
  · unfold iscntrl; exact ite_one_zero_cases _
  · unfold isxdigit; exact ite_one_zero_cases _
  · by_cases h : isupper c ≠ 0
    · have hb := isupper_ne_zero_iff.mp h
      rw [tolower_of_isupper h]
      omega
    · rw [tolower_eq_self (by simpa using h)]
      exact ⟨h0, h1⟩
  · by_cases h : islower c ≠ 0
    · have hb := islower_ne_zero_iff.mp h
      rw [toupper_of_islower h]
      omega
    · rw [toupper_eq_self (by simpa using h)]
      exact ⟨h0, h1⟩
  · have hle : toU c &&& 127 ≤ 127 := Nat.and_le_right
    unfold toascii toS
    rw [if_pos (by omega)]
    omega

/-- Witness for C3 at the concrete input `65`. -/
theorem ctype_total_and_well_defined_witness :
    (isascii 65 = 0 ∨ isascii 65 = 1) ∧
    (isblank 65 = 0 ∨ isblank 65 = 1) ∧
    (isalpha 65 = 0 ∨ isalpha 65 = 1) ∧
    (isdigit 65 = 0 ∨ isdigit 65 = 1) ∧
    (isalnum 65 = 0 ∨ isalnum 65 = 1) ∧
    (isspace 65 = 0 ∨ isspace 65 = 1) ∧
    (isupper 65 = 0 ∨ isupper 65 = 1) ∧
    (islower 65 = 0 ∨ islower 65 = 1) ∧
    (isprint 65 = 0 ∨ isprint 65 = 1) ∧
    (isgraph 65 = 0 ∨ isgraph 65 = 1) ∧
    (ispunct 65 = 0 ∨ ispunct 65 = 1) ∧
    (iscntrl 65 = 0 ∨ iscntrl 65 = 1) ∧
    (isxdigit 65 = 0 ∨ isxdigit 65 = 1) ∧
    (-2147483648 ≤ tolower 65 ∧ tolower 65 < 2147483648) ∧
    (-2147483648 ≤ toupper 65 ∧ toupper 65 < 2147483648) ∧
    (0 ≤ toascii 65 ∧ toascii 65 ≤ 127) :=
  ctype_total_and_well_defined 65 (by decide) (by decide)

/-- C1 counterexample: at the in-domain input `-1`, the section-4 table —
whose `iscntrl` entry asserts that negative inputs are classified as
control — expects a nonzero result, but the code returns 0. -/
theorem classification_table_counterexample :
    (-1 ≤ (-1 : Int) ∧ (-1 : Int) ≤ 255) ∧ spec_iscntrl (-1) ∧ iscntrl (-1) = 0 := by
  decide

set_option maxRecDepth 1000000 in
set_option synthInstance.maxSize 2048 in
set_option synthInstance.maxHeartbeats 2000000 in
/-- C1 (amended): for every integer `c` in `-1..255`, each of the 13
classification predicates is nonzero exactly on the range its section-4
table entry gives, with `iscntrl`'s entry read with the unsigned
lower-bound comparison the code performs (`0 ≤ c < 0x20` or `c = 0x7f`),
so that the sentinel `-1` is not a control character. -/
theorem classification_table (c : Int) (h0 : -1 ≤ c) (h1 : c ≤ 255) :
    (isascii c ≠ 0 ↔ spec_isascii c) ∧
    (isblank c ≠ 0 ↔ spec_isblank c) ∧
    (isupper c ≠ 0 ↔ spec_isupper c) ∧
    (islower c ≠ 0 ↔ spec_islower c) ∧
    (isalpha c ≠ 0 ↔ spec_isalpha c) ∧
    (isdigit c ≠ 0 ↔ spec_isdigit c) ∧
    (isalnum c ≠ 0 ↔ spec_isalnum c) ∧
    (isspace c ≠ 0 ↔ spec_isspace c) ∧
    (isxdigit c ≠ 0 ↔ spec_isxdigit c) ∧
    (isgraph c ≠ 0 ↔ spec_isgraph c) ∧
    (isprint c ≠ 0 ↔ spec_isprint c) ∧
    (ispunct c ≠ 0 ↔ spec_ispunct c) ∧
    (iscntrl c ≠ 0 ↔ spec_iscntrl_unsigned c) := by
  have key : ∀ n : Nat, n < 257 →
      (isascii ((n : Int) - 1) ≠ 0 ↔ spec_isascii ((n : Int) - 1)) ∧
      (isblank ((n : Int) - 1) ≠ 0 ↔ spec_isblank ((n : Int) - 1)) ∧
      (isupper ((n : Int) - 1) ≠ 0 ↔ spec_isupper ((n : Int) - 1)) ∧
      (islower ((n : Int) - 1) ≠ 0 ↔ spec_islower ((n : Int) - 1)) ∧
      (isalpha ((n : Int) - 1) ≠ 0 ↔ spec_isalpha ((n : Int) - 1)) ∧
      (isdigit ((n : Int) - 1) ≠ 0 ↔ spec_isdigit ((n : Int) - 1)) ∧
      (isalnum ((n : Int) - 1) ≠ 0 ↔ spec_isalnum ((n : Int) - 1)) ∧
      (isspace ((n : Int) - 1) ≠ 0 ↔ spec_isspace ((n : Int) - 1)) ∧
      (isxdigit ((n : Int) - 1) ≠ 0 ↔ spec_isxdigit ((n : Int) - 1)) ∧
      (isgraph ((n : Int) - 1) ≠ 0 ↔ spec_isgraph ((n : Int) - 1)) ∧
      (isprint ((n : Int) - 1) ≠ 0 ↔ spec_isprint ((n : Int) - 1)) ∧
      (ispunct ((n : Int) - 1) ≠ 0 ↔ spec_ispunct ((n : Int) - 1)) ∧
      (iscntrl ((n : Int) - 1) ≠ 0 ↔ spec_iscntrl_unsigned ((n : Int) - 1)) := by
    decide
  have hc : c = (((c + 1).toNat : Int)) - 1 := by omega
  rw [hc]
  exact key (c + 1).toNat (by omega)

/-- Witness for C1 (amended) at the concrete input `65`. -/
theorem classification_table_witness :
    (isascii 65 ≠ 0 ↔ spec_isascii 65) ∧
    (isblank 65 ≠ 0 ↔ spec_isblank 65) ∧
    (isupper 65 ≠ 0 ↔ spec_isupper 65) ∧
    (islower 65 ≠ 0 ↔ spec_islower 65) ∧
    (isalpha 65 ≠ 0 ↔ spec_isalpha 65) ∧
    (isdigit 65 ≠ 0 ↔ spec_isdigit 65) ∧
    (isalnum 65 ≠ 0 ↔ spec_isalnum 65) ∧
    (isspace 65 ≠ 0 ↔ spec_isspace 65) ∧
    (isxdigit 65 ≠ 0 ↔ spec_isxdigit 65) ∧
    (isgraph 65 ≠ 0 ↔ spec_isgraph 65) ∧
    (isprint 65 ≠ 0 ↔ spec_isprint 65) ∧
    (ispunct 65 ≠ 0 ↔ spec_ispunct 65) ∧
    (iscntrl 65 ≠ 0 ↔ spec_iscntrl_unsigned 65) :=
  classification_table 65 (by decide) (by decide)

end ctype
